import Mathlib

/-
Verification of the tool-calling orchestration core of the CatsMCP React
client.  The definitions below are a shallow embedding of the TypeScript
services in src/src/services (AnthropicService.ts, OpenAIService.ts and the
OllamaService it also contains, LLMServiceFactory.ts) and of the MCP-backed
variants of OpenAIService and OllamaService.  Model endpoints are embedded
as scripted response lists and the MCP tool gateway as an explicit call
function; every outbound model request and every gateway invocation is
recorded in an event log.
-/

namespace CatsMCP

/-- A JSON value, as produced by the JavaScript JSON.parse builtin.  Numbers
are restricted to integers: no value handled by the claims carries a
fractional or exponent part, and the parser below rejects such numerals. -/
inductive Json where
  | null
  | bool (b : Bool)
  | num (n : Int)
  | str (s : String)
  | arr (elems : List Json)
  | obj (fields : List (String × Json))
deriving Repr

/-- Two-digit lowercase hexadecimal rendering of a byte, for control-character
escapes in JSON string output. -/
def hexDigit (n : Nat) : Char :=
  if n < 10 then Char.ofNat (48 + n) else Char.ofNat (87 + n)

/-- JSON escaping of a single character, as JSON.stringify performs it. -/
def escChar (c : Char) : String :=
  if c = '"' then "\\\""
  else if c = '\\' then "\\\\"
  else if c = '\n' then "\\n"
  else if c = '\r' then "\\r"
  else if c = '\t' then "\\t"
  else if c.toNat < 32 then
    String.mk ['\\', 'u', '0', '0', hexDigit (c.toNat / 16), hexDigit (c.toNat % 16)]
  else String.singleton c

/-- A JSON string literal: quotes around the escaped character sequence. -/
def jsonQuote (s : String) : String :=
  "\"" ++ String.join (s.data.map escChar) ++ "\""

mutual

/-- Compact JSON serialization, as the JavaScript JSON.stringify(v) builtin
renders it (no added whitespace). -/
def Json.stringify : Json → String
  | .null => "null"
  | .bool true => "true"
  | .bool false => "false"
  | .num n => toString n
  | .str s => jsonQuote s
  | .arr xs => "[" ++ Json.stringifyItems xs ++ "]"
  | .obj fs => "\x7b" ++ Json.stringifyFields fs ++ "\x7d"

/-- Comma-separated compact serialization of array elements. -/
def Json.stringifyItems : List Json → String
  | [] => ""
  | [x] => Json.stringify x
  | x :: y :: rest => Json.stringify x ++ "," ++ Json.stringifyItems (y :: rest)

/-- Comma-separated compact serialization of object members. -/
def Json.stringifyFields : List (String × Json) → String
  | [] => ""
  | [(k, v)] => jsonQuote k ++ ":" ++ Json.stringify v
  | (k, v) :: p :: rest =>
      jsonQuote k ++ ":" ++ Json.stringify v ++ "," ++ Json.stringifyFields (p :: rest)

end

/-- An indentation pad of 2n spaces, the gap JSON.stringify(v, null, 2) uses. -/
def pad2 (n : Nat) : String := String.mk (List.replicate (2 * n) ' ')

mutual

/-- Indented JSON serialization at a given nesting depth, following the
layout of the JavaScript JSON.stringify(v, null, 2) builtin. -/
def Json.pretty (depth : Nat) : Json → String
  | .null => "null"
  | .bool true => "true"
  | .bool false => "false"
  | .num n => toString n
  | .str s => jsonQuote s
  | .arr [] => "[]"
  | .arr (x :: xs) =>
      "[\n" ++ Json.prettyItems (depth + 1) (x :: xs) ++ "\n" ++ pad2 depth ++ "]"
  | .obj [] => "\x7b\x7d"
  | .obj (f :: fs) =>
      "\x7b\n" ++ Json.prettyFields (depth + 1) (f :: fs) ++ "\n" ++ pad2 depth ++ "\x7d"

/-- Indented serialization of array elements, one per line. -/
def Json.prettyItems (depth : Nat) : List Json → String
  | [] => ""
  | [x] => pad2 depth ++ Json.pretty depth x
  | x :: y :: rest =>
      pad2 depth ++ Json.pretty depth x ++ ",\n" ++ Json.prettyItems depth (y :: rest)

/-- Indented serialization of object members, one per line. -/
def Json.prettyFields (depth : Nat) : List (String × Json) → String
  | [] => ""
  | [(k, v)] => pad2 depth ++ jsonQuote k ++ ": " ++ Json.pretty depth v
  | (k, v) :: p :: rest =>
      pad2 depth ++ jsonQuote k ++ ": " ++ Json.pretty depth v ++ ",\n" ++
        Json.prettyFields depth (p :: rest)

end

/-- JSON.stringify(v, null, 2), the serialization the services use when they
feed a tool result back to the model. -/
def Json.stringify2 (j : Json) : String := Json.pretty 0 j

/-- Whitespace skipping, as JSON.parse tolerates between tokens. -/
def skipWs : List Char → List Char
  | [] => []
  | c :: r => if c = ' ' ∨ c = '\n' ∨ c = '\t' ∨ c = '\r' then skipWs r else c :: r

/-- Value of a hexadecimal digit character, if it is one. -/
def hexVal (c : Char) : Option Nat :=
  if '0' ≤ c ∧ c ≤ '9' then some (c.toNat - 48)
  else if 'a' ≤ c ∧ c ≤ 'f' then some (c.toNat - 87)
  else if 'A' ≤ c ∧ c ≤ 'F' then some (c.toNat - 55)
  else none

/-- Decoding of a single-character JSON string escape. -/
def escDecode (e : Char) : Option Char :=
  if e = '"' then some '"'
  else if e = '\\' then some '\\'
  else if e = '/' then some '/'
  else if e = 'n' then some '\n'
  else if e = 't' then some '\t'
  else if e = 'r' then some '\r'
  else if e = 'b' then some (Char.ofNat 8)
  else if e = 'f' then some (Char.ofNat 12)
  else none

/-- Body of a JSON string literal: the decoded characters up to the closing
quote, then the remaining input.  Raw control characters are rejected, as
JSON.parse rejects them. -/
def parseStrBody : List Char → Option (List Char × List Char)
  | [] => none
  | '"' :: r => some ([], r)
  | '\\' :: 'u' :: h1 :: h2 :: h3 :: h4 :: r =>
      match hexVal h1, hexVal h2, hexVal h3, hexVal h4 with
      | some a, some b, some c, some d =>
          (parseStrBody r).map
            (fun p => (Char.ofNat (((a * 16 + b) * 16 + c) * 16 + d) :: p.1, p.2))
      | _, _, _, _ => none
  | '\\' :: e :: r =>
      match escDecode e with
      | some c => (parseStrBody r).map (fun p => (c :: p.1, p.2))
      | none => none
  | c :: r =>
      if c.toNat < 32 then none
      else (parseStrBody r).map (fun p => (c :: p.1, p.2))

/-- Leading decimal digits of the input and the remaining input. -/
def parseDigits : List Char → List Char × List Char
  | [] => ([], [])
  | c :: r =>
      if '0' ≤ c ∧ c ≤ '9' then
        let p := parseDigits r
        (c :: p.1, p.2)
      else ([], c :: r)

/-- Natural number denoted by a digit sequence. -/
def digitsToNat : List Char → Nat
  | [] => 0
  | ds => ds.foldl (fun acc c => acc * 10 + (c.toNat - 48)) 0

mutual

/-- Recursive-descent JSON value grammar, embedding JSON.parse.  The fuel
argument strictly decreases on every recursive call and is chosen large
enough at the top entry point that it never runs out on any input.
Fractional or exponent numerals are not supported (rejected), matching the
restriction of the Json type to integer numbers. -/
def parseVal : Nat → List Char → Option (Json × List Char)
  | 0, _ => none
  | fuel + 1, l =>
      match skipWs l with
      | 'n' :: 'u' :: 'l' :: 'l' :: r => some (.null, r)
      | 't' :: 'r' :: 'u' :: 'e' :: r => some (.bool true, r)
      | 'f' :: 'a' :: 'l' :: 's' :: 'e' :: r => some (.bool false, r)
      | '"' :: r => (parseStrBody r).map (fun p => (.str (String.mk p.1), p.2))
      | '[' :: r =>
          match skipWs r with
          | ']' :: r2 => some (.arr [], r2)
          | r2 => (parseItems fuel r2).map (fun p => (.arr p.1, p.2))
      | '\x7b' :: r =>
          match skipWs r with
          | '\x7d' :: r2 => some (.obj [], r2)
          | r2 => (parseMembers fuel r2).map (fun p => (.obj p.1, p.2))
      | '-' :: r =>
          match parseDigits r with
          | ([], _) => none
          | (ds, r2) =>
              match r2 with
              | '.' :: _ => none
              | 'e' :: _ => none
              | 'E' :: _ => none
              | _ => some (.num (-(digitsToNat ds : Int)), r2)
      | c :: r =>
          if '0' ≤ c ∧ c ≤ '9' then
            match parseDigits (c :: r) with
            | (ds, r2) =>
                match r2 with
                | '.' :: _ => none
                | 'e' :: _ => none
                | 'E' :: _ => none
                | _ => some (.num (digitsToNat ds : Int), r2)
          else none
      | [] => none

/-- One or more comma-separated array elements followed by a closing
bracket. -/
def parseItems : Nat → List Char → Option (List Json × List Char)
  | 0, _ => none
  | fuel + 1, l =>
      match parseVal fuel l with
      | none => none
      | some (v, r) =>
          match skipWs r with
          | ',' :: r2 => (parseItems fuel r2).map (fun p => (v :: p.1, p.2))
          | ']' :: r2 => some ([v], r2)
          | _ => none

/-- One or more comma-separated object members followed by a closing
brace. -/
def parseMembers : Nat → List Char → Option (List (String × Json) × List Char)
  | 0, _ => none
  | fuel + 1, l =>
      match skipWs l with
      | '"' :: r =>
          match parseStrBody r with
          | none => none
          | some (key, r2) =>
              match skipWs r2 with
              | ':' :: r3 =>
                  match parseVal fuel r3 with
                  | none => none
                  | some (v, r4) =>
                      match skipWs r4 with
                      | ',' :: r5 =>
                          (parseMembers fuel r5).map
                            (fun p => ((String.mk key, v) :: p.1, p.2))
                      | '\x7d' :: r5 => some ([(String.mk key, v)], r5)
                      | _ => none
              | _ => none
      | _ => none

end

/-- JSON.parse: parse one value and require only whitespace to remain;
on any violation the JavaScript builtin throws, embedded here as none. -/
def Json.parse (s : String) : Option Json :=
  match parseVal (2 * s.length + 4) s.data with
  | some (v, rest) => if skipWs rest = [] then some v else none
  | none => none

/-- Split a character list at the first occurrence of a character: the part
before it and the part after it, or none when the character is absent. -/
def breakAtChar (c : Char) : List Char → Option (List Char × List Char)
  | [] => none
  | x :: r =>
      if x = c then some ([], r)
      else (breakAtChar c r).map (fun p => (x :: p.1, p.2))

/-- JavaScript truthiness of a JSON value: null, false, 0 and the empty
string are falsy; every object and array is truthy. -/
def jsTruthy : Json → Bool
  | .null => false
  | .bool b => b
  | .num n => n ≠ 0
  | .str s => s ≠ ""
  | .arr _ => true
  | .obj _ => true

/-- The JavaScript expression e || d for an optional string e: the default
is used when e is absent or empty (falsy). -/
def jsOr (e : Option String) (d : String) : String :=
  match e with
  | some s => if s = "" then d else s
  | none => d

/-- The JavaScript expression n || d for an optional number n: the default
is used when n is absent or zero (falsy). -/
def jsOrNat (e : Option Nat) (d : Nat) : Nat :=
  match e with
  | some n => if n = 0 then d else n
  | none => d

/-- Truthiness of an optional string configuration field: the JavaScript
test !field succeeds when the field is absent or the empty string. -/
def jsTruthyStr (e : Option String) : Bool :=
  match e with
  | some s => s ≠ ""
  | none => false

/-- Property access parsed[key] on a JSON value: none unless the value is an
object carrying the key; a duplicate key keeps its last occurrence, as
JSON.parse does. -/
def Json.getField (j : Json) (key : String) : Option Json :=
  match j with
  | .obj fs => fs.foldl (fun acc p => if p.1 = key then some p.2 else acc) none
  | _ => none

/-- String(x) coercion of a JSON value in a template literal: strings are
inserted verbatim, arrays join their elements with commas, plain objects
display as [object Object]. -/
def jsDisplay : Json → String
  | .null => "null"
  | .bool true => "true"
  | .bool false => "false"
  | .num n => toString n
  | .str s => s
  | .arr xs =>
      let rec goItems : List Json → String
        | [] => ""
        | [x] => jsDisplay x
        | x :: y :: rest => jsDisplay x ++ "," ++ goItems (y :: rest)
      goItems xs
  | .obj _ => "[object Object]"

/-- The result shape of McpClientInterface.callTool from src/src/types:
success with a result value, or failure with an error string. -/
structure McpToolResult where
  success : Bool
  result : Json
  error : Option String

/-- A tool descriptor from the MCP registry (name, description, input
schema), as held in the tools field of every service. -/
structure McpTool where
  name : String
  description : String
  inputSchema : Json

/-! ## Structured-Call adapter: AnthropicService (src/src/services/AnthropicService.ts) -/

/-- A content block of an Anthropic message: a text block, a tool-use block
of a model response, or a tool-result block the service synthesizes. -/
inductive ABlock where
  | text (s : String)
  | toolUse (id : String) (name : String) (input : Json)
  | toolResult (toolUseId : String) (content : String) (isError : Bool)

/-- The role of an entry of the Anthropic conversation history. -/
inductive ARole where
  | user
  | assistant

/-- Message content: either a plain string or a list of content blocks. -/
inductive AContent where
  | str (s : String)
  | blocks (bs : List ABlock)

/-- One entry of the Anthropic conversation history. -/
structure AMessage where
  role : ARole
  content : AContent

/-- A scripted model response: the content-block list of the message the
Anthropic endpoint returns. -/
structure AResponse where
  content : List ABlock

/-- The external dependencies of AnthropicService: the MCP tool gateway. -/
structure AnthropicEnv where
  callTool : String → Json → McpToolResult

/-- Observable actions of a run of the Structured-Call adapter: an outbound
model request carrying its message payload, or a tool gateway call. -/
inductive AEvent where
  | model (messages : List AMessage)
  | tool (name : String) (args : Json)

/-- The mutable state of AnthropicService: its conversation history, tool
registry snapshot, and the configured maximum output tokens. -/
structure AnthropicService where
  conversationHistory : List AMessage
  tools : List McpTool
  maxTokens : Option Nat

/-- Whether a content block is a tool-use block. -/
def isToolUse : ABlock → Bool
  | .toolUse _ _ _ => true
  | _ => false

/-- The text extraction of AnthropicService.sendMessage: filter the text
blocks, take their text, join with the empty separator. -/
def textConcat (bs : List ABlock) : String :=
  String.join (bs.filterMap (fun b => match b with | .text s => some s | _ => none))

/-- The body of the for-loop of AnthropicService.handleToolUse: for every
tool-use block of the response, in order, call the MCP gateway and wrap the
outcome as a tool-result block; a gateway failure becomes an error-marked
block with the reason, and never stops the iteration.  Returns the
tool-result blocks and the gateway events, both in emission order. -/
def execToolUses (env : AnthropicEnv) : List ABlock → List ABlock × List AEvent
  | [] => ([], [])
  | b :: rest =>
      let tail := execToolUses env rest
      match b with
      | .toolUse id name input =>
          let r := env.callTool name input
          let res : ABlock :=
            if r.success then .toolResult id (Json.stringify2 r.result) false
            else .toolResult id ("Error calling tool: " ++ jsOr r.error "Tool call failed") true
          (res :: tail.1, .tool name input :: tail.2)
      | _ => tail

/-- The outcome of a service operation: the returned value or a thrown
error, the state after the run, the event log, and the unconsumed part of
the scripted model responses. -/
structure ARun where
  result : Except String String
  state : AnthropicService
  events : List AEvent
  scriptRest : List AResponse

/-- AnthropicService.handleToolUse: append the assistant response, execute
every tool-use block, append the batch of tool results as one user turn,
re-send the transcript once, append the follow-up response, and return its
concatenated text blocks.  An exhausted script embeds a rejected model call,
which the catch of sendMessage rethrows as a Claude API error. -/
def handleToolUse (svc : AnthropicService) (response : AResponse)
    (script : List AResponse) (env : AnthropicEnv) : ARun :=
  let h1 := svc.conversationHistory ++ [⟨.assistant, .blocks response.content⟩]
  let exec := execToolUses env response.content
  let h2 := h1 ++ [⟨.user, .blocks exec.1⟩]
  match script with
  | [] =>
      ⟨.error "Claude API error: model call failed",
        { svc with conversationHistory := h2 }, exec.2 ++ [.model h2], []⟩
  | follow :: rest =>
      let h3 := h2 ++ [⟨.assistant, .blocks follow.content⟩]
      ⟨.ok (textConcat follow.content),
        { svc with conversationHistory := h3 }, exec.2 ++ [.model h2], rest⟩

/-- AnthropicService.sendMessage: append the user turn, send the transcript,
and either run handleToolUse (when any block of the response is a tool-use
block) or append the assistant response and return its concatenated text
blocks. -/
def anthropicSendMessage (svc : AnthropicService) (message : String)
    (script : List AResponse) (env : AnthropicEnv) : ARun :=
  let h0 := svc.conversationHistory ++ [⟨.user, .str message⟩]
  let svc0 := { svc with conversationHistory := h0 }
  match script with
  | [] => ⟨.error "Claude API error: model call failed", svc0, [.model h0], []⟩
  | resp :: rest =>
      if resp.content.any isToolUse then
        let run := handleToolUse svc0 resp rest env
        ⟨run.result, run.state, .model h0 :: run.events, run.scriptRest⟩
      else
        let h1 := h0 ++ [⟨.assistant, .blocks resp.content⟩]
        ⟨.ok (textConcat resp.content),
          { svc with conversationHistory := h1 }, [.model h0], rest⟩

/-- Serialization of one history entry in
AnthropicService.getConversationStats: block lists map each block through
JSON.stringify and join with single spaces; plain strings pass through. -/
def blockJson : ABlock → Json
  | .text s => .obj [("type", .str "text"), ("text", .str s)]
  | .toolUse id name input =>
      .obj [("type", .str "tool_use"), ("id", .str id), ("name", .str name),
        ("input", input)]
  | .toolResult id content isError =>
      .obj [("type", .str "tool_result"), ("tool_use_id", .str id),
        ("content", .str content), ("is_error", .bool isError)]

/-- The serialized text of a history entry, as getConversationStats measures
it. -/
def serializeContent : AContent → String
  | .str s => s
  | .blocks bs => String.intercalate " " (bs.map (fun b => Json.stringify (blockJson b)))

/-- The record getConversationStats returns. -/
structure ConversationStats where
  messageCount : Nat
  estimatedTokens : Nat
  toolTokens : Nat
  modelLimit : Nat
  availableTokens : Int

/-- AnthropicService.getConversationStats: a fixed 200000-token model limit,
a per-entry estimate of ceil(serializedLength / 4) summed over the history,
a flat 50 tokens per registered tool, and a reserve of maxTokens (default
1000) plus 500. -/
def getConversationStats (svc : AnthropicService) : ConversationStats :=
  let messageCount := svc.conversationHistory.length
  let modelLimit : Nat := 200000
  let estimatedTokens := svc.conversationHistory.foldl
    (fun sum msg => sum + ((serializeContent msg.content).length + 3) / 4) 0
  let toolTokens := svc.tools.length * 50
  let reserveTokens := jsOrNat svc.maxTokens 1000 + 500
  { messageCount := messageCount
    estimatedTokens := estimatedTokens
    toolTokens := toolTokens
    modelLimit := modelLimit
    availableTokens := (modelLimit : Int) - reserveTokens - toolTokens }

/-! ## Inline-Function-Call adapter: OpenAIService (MCP-backed variant) -/

/-- One tool call of an OpenAI assistant message: its id, the function name,
and the escaped-JSON argument string (fields id, function.name and
function.arguments of the SDK shape). -/
structure OToolCall where
  id : String
  fname : String
  fargs : String

/-- One entry of the OpenAI conversation history, covering every role of the
chat-completions message-parameter union.  The service itself never pushes a
system entry. -/
inductive OMessage where
  | system (content : String)
  | user (content : String)
  | assistant (content : Option String) (toolCalls : List OToolCall)
  | tool (content : String) (toolCallId : String)

/-- The assistant message of a scripted chat completion: optional text
content and the tool-call list (an absent tool_calls field is the empty
list, which the guard of sendMessage treats identically). -/
structure OChatMessage where
  content : Option String
  toolCalls : List OToolCall

/-- One choice of a scripted chat completion; the message is optional so
that the defensive guard of sendMessage on an absent message is
expressible. -/
structure OChoice where
  message : Option OChatMessage

/-- A scripted response of the chat-completions endpoint. -/
structure OResponse where
  choices : List OChoice

/-- The external dependencies of OpenAIService: the MCP tool gateway. -/
structure OpenAIEnv where
  callTool : String → Json → McpToolResult

/-- Observable actions of a run of the Inline-Function-Call adapter. -/
inductive OEvent where
  | model (messages : List OMessage)
  | tool (name : String) (args : Json)

/-- The mutable state of OpenAIService: its conversation history. -/
structure OpenAIService where
  conversationHistory : List OMessage

/-- The outcome of a run of the Inline-Function-Call adapter. -/
structure ORun where
  result : Except String String
  state : OpenAIService
  events : List OEvent
  scriptRest : List OResponse

/-- Stand-in for the engine-specific SyntaxError message JSON.parse throws
on malformed input; the services only ever embed it after the fixed prefix
Error calling tool. -/
def jsonParseErrorMessage : String := "Unexpected token in JSON"

/-- The body of the for-loop of OpenAIService.handleToolCalls: parse the
escaped argument string of each call — a parse failure becomes that call's
error-text tool message without reaching the gateway — then call the MCP
gateway; a gateway failure likewise becomes the call's error-text tool
message.  Iteration never stops early.  Returns the tool messages (one per
call, in order) and the gateway events. -/
def execToolCalls (env : OpenAIEnv) : List OToolCall → List OMessage × List OEvent
  | [] => ([], [])
  | tc :: rest =>
      let tail := execToolCalls env rest
      match Json.parse tc.fargs with
      | none =>
          (.tool ("Error calling tool: " ++ jsonParseErrorMessage) tc.id :: tail.1,
            tail.2)
      | some args =>
          let r := env.callTool tc.fname args
          let res : OMessage :=
            if r.success then .tool (Json.stringify2 r.result) tc.id
            else .tool ("Error calling tool: " ++ jsOr r.error "Tool call failed") tc.id
          (res :: tail.1, .tool tc.fname args :: tail.2)

/-- OpenAIService.handleToolCalls: append the assistant message with its
tool calls, execute every call, append each tool-result message, re-send the
transcript once, and return the follow-up content; an absent or empty
follow-up content throws a no-follow-up error. -/
def handleToolCalls (svc : OpenAIService) (message : OChatMessage)
    (script : List OResponse) (env : OpenAIEnv) : ORun :=
  let h1 := svc.conversationHistory ++ [.assistant message.content message.toolCalls]
  let exec := execToolCalls env message.toolCalls
  let h2 := h1 ++ exec.1
  match script with
  | [] =>
      ⟨.error "OpenAI API error: model call failed",
        ⟨h2⟩, exec.2 ++ [.model h2], []⟩
  | follow :: rest =>
      match follow.choices.head? with
      | none =>
          ⟨.error "OpenAI API error: No follow-up response from OpenAI",
            ⟨h2⟩, exec.2 ++ [.model h2], rest⟩
      | some choice =>
          match choice.message with
          | none =>
              ⟨.error "OpenAI API error: No follow-up response from OpenAI",
                ⟨h2⟩, exec.2 ++ [.model h2], rest⟩
          | some fm =>
              match fm.content with
              | none =>
                  ⟨.error "OpenAI API error: No follow-up response from OpenAI",
                    ⟨h2⟩, exec.2 ++ [.model h2], rest⟩
              | some c =>
                  if c = "" then
                    ⟨.error "OpenAI API error: No follow-up response from OpenAI",
                      ⟨h2⟩, exec.2 ++ [.model h2], rest⟩
                  else
                    ⟨.ok c, ⟨h2 ++ [.assistant (some c) []]⟩,
                      exec.2 ++ [.model h2], rest⟩

/-- OpenAIService.sendMessage: append the user turn, send the full
transcript, and either throw on an absent first choice or message, run
handleToolCalls when the tool-call list is non-empty, or append and return
the plain text content (null content coerces to the empty string). -/
def openAISendMessage (svc : OpenAIService) (message : String)
    (script : List OResponse) (env : OpenAIEnv) : ORun :=
  let h0 := svc.conversationHistory ++ [.user message]
  match script with
  | [] => ⟨.error "OpenAI API error: model call failed", ⟨h0⟩, [.model h0], []⟩
  | resp :: rest =>
      match resp.choices.head? with
      | none => ⟨.error "OpenAI API error: No response from OpenAI", ⟨h0⟩, [.model h0], rest⟩
      | some choice =>
          match choice.message with
          | none =>
              ⟨.error "OpenAI API error: No response from OpenAI", ⟨h0⟩, [.model h0], rest⟩
          | some m =>
              if m.toolCalls.isEmpty then
                let textContent := m.content.getD ""
                ⟨.ok textContent, ⟨h0 ++ [.assistant (some textContent) []]⟩,
                  [.model h0], rest⟩
              else
                let run := handleToolCalls ⟨h0⟩ m rest env
                ⟨run.result, run.state, .model h0 :: run.events, run.scriptRest⟩

/-- Whether a history entry is a system message. -/
def OMessage.isSystem : OMessage → Bool
  | .system _ => true
  | _ => false

/-! ## Free-Text-Pattern adapter: OllamaService (MCP-backed variant) -/

/-- The external dependencies of OllamaService: the MCP tool gateway.  The
name argument is whatever JSON value the extracted tool_name field held,
passed through unchanged as the source does. -/
structure OllamaEnv where
  callTool : Json → Json → McpToolResult

/-- Observable actions of a run of the Free-Text-Pattern adapter: a plain
completion request or a tool gateway call. -/
inductive LEvent where
  | model
  | tool (name : Json) (args : Json)

/-- The mutable state of OllamaService: its conversation history of plain
role/content string pairs. -/
structure OllamaService where
  conversationHistory : List (String × String)

/-- The outcome of a run of the Free-Text-Pattern adapter.  A scripted
completion entry of none embeds a response body with no response field;
script exhaustion embeds a rejected network call. -/
structure LRun where
  result : Except String String
  state : OllamaService
  events : List LEvent
  scriptRest : List (Option String)

/-- The regex match of OllamaService.extractToolCall.  The pattern is a
lazy brace-to-brace match, so the JavaScript engine returns the substring
from the first opening brace of the text to the first closing brace after
it, whatever stands between; no match without such a pair. -/
def lazyBraceMatch (s : String) : Option String :=
  match breakAtChar '\x7b' s.data with
  | none => none
  | some (_, afterOpen) =>
      match breakAtChar '\x7d' afterOpen with
      | none => none
      | some (mid, _) => some (String.mk ('\x7b' :: mid ++ ['\x7d']))

/-- OllamaService.extractToolCall: take the lazy brace match of the
completion text, JSON-parse it (a parse failure is swallowed and yields no
tool call), and require truthy tool_name and parameters fields; the
extracted pair keeps both field values as they are. -/
def extractToolCall (response : String) : Option (Json × Json) :=
  match lazyBraceMatch response with
  | none => none
  | some jsonStr =>
      match Json.parse jsonStr with
      | none => none
      | some parsed =>
          match parsed.getField "tool_name", parsed.getField "parameters" with
          | some tn, some ps =>
              if jsTruthy tn && jsTruthy ps then some (tn, ps) else none
          | _, _ => none

/-- OllamaService.handleToolCall: call the MCP gateway once; on success,
append a fixed synthesized assistant turn naming the tool, issue the
follow-up completion (its empty or absent body falls back to a fixed
string), append and return the follow-up; on any failure — a gateway
failure or a rejected follow-up call — append and return an error text
naming the tool.  Nothing in this handler rethrows. -/
def ollamaHandleToolCall (svc : OllamaService) (name : Json) (params : Json)
    (script : List (Option String)) (env : OllamaEnv) : LRun :=
  let r := env.callTool name params
  let callEv : List LEvent := [.tool name params]
  if r.success then
    let h1 := svc.conversationHistory ++
      [("assistant", "I\x27ll use the " ++ jsDisplay name ++ " tool to help you.")]
    match script with
    | [] =>
        let em := "Error executing tool " ++ jsDisplay name ++ ": model call failed"
        ⟨.ok em, ⟨h1 ++ [("assistant", em)]⟩, callEv, []⟩
    | follow :: rest =>
        let finalResponse := jsOr follow "Tool executed successfully."
        ⟨.ok finalResponse, ⟨h1 ++ [("assistant", finalResponse)]⟩,
          callEv ++ [.model], rest⟩
  else
    let em := "Error executing tool " ++ jsDisplay name ++ ": " ++
      jsOr r.error "Tool call failed"
    ⟨.ok em, ⟨svc.conversationHistory ++ [("assistant", em)]⟩, callEv, script⟩

/-- OllamaService.sendMessage: append the user turn, request one completion
(an absent or empty body throws a no-response error), and either return the
raw completion verbatim after appending it — when extractToolCall finds no
tool call — or delegate to handleToolCall. -/
def ollamaSendMessage (svc : OllamaService) (message : String)
    (script : List (Option String)) (env : OllamaEnv) : LRun :=
  let h0 := svc.conversationHistory ++ [("user", message)]
  match script with
  | [] => ⟨.error "Ollama API error: model call failed", ⟨h0⟩, [.model], []⟩
  | entry :: rest =>
      match entry with
      | none => ⟨.error "Ollama API error: No response from Ollama", ⟨h0⟩, [.model], rest⟩
      | some raw =>
          if raw = "" then
            ⟨.error "Ollama API error: No response from Ollama", ⟨h0⟩, [.model], rest⟩
          else
            match extractToolCall raw with
            | none => ⟨.ok raw, ⟨h0 ++ [("assistant", raw)]⟩, [.model], rest⟩
            | some (n, p) =>
                let run := ollamaHandleToolCall ⟨h0⟩ n p rest env
                ⟨run.result, run.state, .model :: run.events, run.scriptRest⟩

/-! ## Adapter Factory: LLMServiceFactory (src/src/services/LLMServiceFactory.ts) -/

/-- The configuration surface consumed by the factory. -/
structure LLMConfig where
  provider : String
  model : String
  apiKey : Option String
  baseUrl : Option String
  maxTokens : Option Nat

/-- Which adapter the factory constructed. -/
inductive CreatedService where
  | anthropic
  | openai
  | ollama
deriving DecidableEq

/-- LLMServiceFactory.create: one case per provider identity; the hosted
cases require a truthy apiKey and the local case a truthy baseUrl, throwing
a descriptive configuration error otherwise; an unknown provider throws.
The second component records the network and gateway calls performed during
construction: the constructors only instantiate SDK client objects, so it
is always empty. -/
def factoryCreate (config : LLMConfig) : Except String CreatedService × List String :=
  if config.provider = "anthropic" then
    if jsTruthyStr config.apiKey then (.ok .anthropic, [])
    else (.error "API key is required for Anthropic", [])
  else if config.provider = "openai" then
    if jsTruthyStr config.apiKey then (.ok .openai, [])
    else (.error "API key is required for OpenAI", [])
  else if config.provider = "ollama" then
    if jsTruthyStr config.baseUrl then (.ok .ollama, [])
    else (.error "Base URL is required for Ollama", [])
  else (.error ("Unsupported LLM provider: " ++ config.provider), [])

/-! ## Projections used to characterize the tool-execution loops -/

/-- The tool-result block one tool-use block of a response produces in the
loop of AnthropicService.handleToolUse; none for other block kinds. -/
def aResultOf (env : AnthropicEnv) : ABlock → Option ABlock
  | .toolUse id name input =>
      let r := env.callTool name input
      some (if r.success then .toolResult id (Json.stringify2 r.result) false
        else .toolResult id ("Error calling tool: " ++ jsOr r.error "Tool call failed") true)
  | _ => none

/-- The gateway call one tool-use block of a response triggers; none for
other block kinds. -/
def aEventOf : ABlock → Option AEvent
  | .toolUse _ name input => some (.tool name input)
  | _ => none

/-- The tool message one entry of an OpenAI tool-call batch produces: the
parse-failure error text when its argument string is not valid JSON, the
serialized result on gateway success, the error text on gateway failure. -/
def oResultOf (env : OpenAIEnv) (tc : OToolCall) : OMessage :=
  match Json.parse tc.fargs with
  | none => .tool ("Error calling tool: " ++ jsonParseErrorMessage) tc.id
  | some args =>
      let r := env.callTool tc.fname args
      if r.success then .tool (Json.stringify2 r.result) tc.id
      else .tool ("Error calling tool: " ++ jsOr r.error "Tool call failed") tc.id

/-- The gateway call one entry of an OpenAI tool-call batch triggers; none
when its argument string fails to parse (the gateway is never reached). -/
def oEventOf (tc : OToolCall) : Option OEvent :=
  match Json.parse tc.fargs with
  | none => none
  | some args => some (.tool tc.fname args)

/-! ## Spec-modelled Context Budget Manager estimate -/

/-- The serialized text length of one Inline-adapter turn, the quantity the
spec-modelled estimate below is applied to. -/
def oSerLen : OMessage → Nat
  | .system s => s.length
  | .user s => s.length
  | .assistant c _ => (c.getD "").length
  | .tool s _ => s.length

/-- The number of tool calls carried by one Inline-adapter turn. -/
def oNumCalls : OMessage → Nat
  | .assistant _ tcs => tcs.length
  | _ => 0

/-- Modelled from the spec: the per-turn token estimate of the Context
Budget Manager (spec 4.3) — ceil(serializedTextLength / 3) plus a fixed
per-turn overhead, plus a per-call overhead for turns carrying tool calls.
The repository code contains no estimator for the Inline-Function-Call
adapter, so the two overhead constants are parameters; the estimate is
monotone in both. -/
def specTurnEstimate (fixedOverheadPerTurn callOverhead : Nat) (m : OMessage) : Nat :=
  (oSerLen m + 2) / 3 + fixedOverheadPerTurn + callOverhead * oNumCalls m

/-- Modelled from the spec: the transcript estimate of the Context Budget
Manager, the sum of the per-turn estimates. -/
def specTranscriptEstimate (fixedOverheadPerTurn callOverhead : Nat)
    (ms : List OMessage) : Nat :=
  (ms.map (specTurnEstimate fixedOverheadPerTurn callOverhead)).sum

/-! ## Helper lemmas -/

/-- A left fold accumulating a mapped value equals the initial value plus
the sum of the mapped list. -/
theorem foldl_add_map {α : Type} (f : α → Nat) (l : List α) (init : Nat) :
    l.foldl (fun s m => s + f m) init = init + (l.map f).sum := by
  induction l generalizing init with
  | nil => simp
  | cons a t ih => simp [List.foldl_cons, ih, Nat.add_assoc]

/-- The loop of AnthropicService.handleToolUse produces exactly the
tool-result block of each tool-use block, in order, and one gateway call
per tool-use block, in order. -/
theorem execToolUses_eq (env : AnthropicEnv) (bs : List ABlock) :
    execToolUses env bs = (bs.filterMap (aResultOf env), bs.filterMap aEventOf) := by
  induction bs with
  | nil => rfl
  | cons b rest ih => cases b <;> simp [execToolUses, aResultOf, aEventOf, ih]

/-- A block list with no tool-use block triggers no gateway call. -/
theorem filterMap_aEventOf_nil (t : List ABlock)
    (h : ∀ b ∈ t, isToolUse b = false) : t.filterMap aEventOf = [] := by
  induction t with
  | nil => rfl
  | cons b rest ih =>
      have hb := h b (List.mem_cons_self b rest)
      have hr := ih (fun x hx => h x (List.mem_cons_of_mem b hx))
      cases b with
      | toolUse id name input => simp [isToolUse] at hb
      | text s => simp [aEventOf, hr]
      | toolResult id c e => simp [aEventOf, hr]

/-- The loop of OpenAIService.handleToolCalls produces exactly one tool
message per call of the batch, in order, and one gateway call per
successfully parsed call, in order. -/
theorem execToolCalls_eq (env : OpenAIEnv) (tcs : List OToolCall) :
    execToolCalls env tcs = (tcs.map (oResultOf env), tcs.filterMap oEventOf) := by
  induction tcs with
  | nil => rfl
  | cons tc rest ih =>
      cases hp : Json.parse tc.fargs <;>
        simp [execToolCalls, ih, oResultOf, oEventOf, hp]

/-- Every event the OpenAI tool-call loop emits is a gateway call, never a
model request. -/
theorem oEvents_not_model (env : OpenAIEnv) (tcs : List OToolCall) (ms : List OMessage)
    (h : OEvent.model ms ∈ (execToolCalls env tcs).2) : False := by
  rw [execToolCalls_eq] at h
  rcases List.mem_filterMap.mp h with ⟨tc, _, htc⟩
  unfold oEventOf at htc
  split at htc
  case _ => exact Option.noConfusion htc
  case _ => exact OEvent.noConfusion (Option.some.inj htc)

/-- Every message the OpenAI tool-call loop appends is a tool message,
never a system message. -/
theorem oResults_not_system (env : OpenAIEnv) (tcs : List OToolCall) (m : OMessage)
    (h : m ∈ (execToolCalls env tcs).1) : m.isSystem = false := by
  rw [execToolCalls_eq] at h
  rcases List.mem_map.mp h with ⟨tc, _, rfl⟩
  unfold oResultOf
  cases Json.parse tc.fargs with
  | none => rfl
  | some args => dsimp only; split <;> rfl


/-! ## Claim theorems -/

/-- Claim C1, counterexample: with a scripted sequence whose second response
still contains a tool-call block, sendMessage of the Structured-Call adapter
returns the text of that second response as the final answer — a response
that does contain a tool-call block — and performs exactly two model calls,
so the cycle is not repeated until a response contains no tool-call blocks. -/
theorem c1_counterexample :
    (anthropicSendMessage ⟨[], [], none⟩ "hi"
        [⟨[ABlock.toolUse "1" "getCats" Json.null]⟩,
         ⟨[ABlock.text "partial", ABlock.toolUse "2" "getCats" Json.null]⟩]
        ⟨fun _ _ => ⟨true, Json.null, none⟩⟩).result = Except.ok "partial" ∧
    ([ABlock.text "partial", ABlock.toolUse "2" "getCats" Json.null].any isToolUse) = true ∧
    ((anthropicSendMessage ⟨[], [], none⟩ "hi"
        [⟨[ABlock.toolUse "1" "getCats" Json.null]⟩,
         ⟨[ABlock.text "partial", ABlock.toolUse "2" "getCats" Json.null]⟩]
        ⟨fun _ _ => ⟨true, Json.null, none⟩⟩).events.countP
          (fun e => match e with | AEvent.model _ => true | _ => false)) = 2 := by
  exact ⟨rfl, rfl, rfl⟩

/-- Claim C1 (amended): when the first scripted response contains a
tool-call block, sendMessage of the Structured-Call adapter performs exactly
one tool-execution round: it executes every tool call of that response in
order, appends the batch of results, re-queries the model exactly once, and
returns the concatenated text blocks of the follow-up response whether or
not the follow-up contains further tool-call blocks; the rest of the script
is never consumed. -/
theorem c1_single_round (svc : AnthropicService) (message : String)
    (r1 follow : AResponse) (rest : List AResponse) (env : AnthropicEnv)
    (h : r1.content.any isToolUse = true) :
    anthropicSendMessage svc message (r1 :: follow :: rest) env =
      ⟨Except.ok (textConcat follow.content),
       { svc with conversationHistory := svc.conversationHistory ++
           [⟨ARole.user, AContent.str message⟩,
            ⟨ARole.assistant, AContent.blocks r1.content⟩,
            ⟨ARole.user, AContent.blocks (r1.content.filterMap (aResultOf env))⟩,
            ⟨ARole.assistant, AContent.blocks follow.content⟩] },
       AEvent.model (svc.conversationHistory ++ [⟨ARole.user, AContent.str message⟩])
         :: (r1.content.filterMap aEventOf
             ++ [AEvent.model (svc.conversationHistory ++
                  [⟨ARole.user, AContent.str message⟩,
                   ⟨ARole.assistant, AContent.blocks r1.content⟩,
                   ⟨ARole.user, AContent.blocks (r1.content.filterMap (aResultOf env))⟩])]),
       rest⟩ := by
  simp [anthropicSendMessage, handleToolUse, h, execToolUses_eq, List.append_assoc]

/-- Claim C1 witness: the single-round theorem applied to a concrete
one-call script. -/
theorem c1_single_round_witness :
    anthropicSendMessage ⟨[], [], none⟩ "hi"
        [⟨[ABlock.toolUse "1" "echo" Json.null]⟩, ⟨[ABlock.text "ok"]⟩]
        ⟨fun _ _ => ⟨true, Json.null, none⟩⟩ =
      ⟨Except.ok "ok",
       ⟨[⟨ARole.user, AContent.str "hi"⟩,
         ⟨ARole.assistant, AContent.blocks [ABlock.toolUse "1" "echo" Json.null]⟩,
         ⟨ARole.user, AContent.blocks [ABlock.toolResult "1" "null" false]⟩,
         ⟨ARole.assistant, AContent.blocks [ABlock.text "ok"]⟩], [], none⟩,
       [AEvent.model [⟨ARole.user, AContent.str "hi"⟩],
        AEvent.tool "echo" Json.null,
        AEvent.model [⟨ARole.user, AContent.str "hi"⟩,
          ⟨ARole.assistant, AContent.blocks [ABlock.toolUse "1" "echo" Json.null]⟩,
          ⟨ARole.user, AContent.blocks [ABlock.toolResult "1" "null" false]⟩]],
       []⟩ := by
  have := c1_single_round ⟨[], [], none⟩ "hi" ⟨[ABlock.toolUse "1" "echo" Json.null]⟩
    ⟨[ABlock.text "ok"]⟩ [] ⟨fun _ _ => ⟨true, Json.null, none⟩⟩ rfl
  exact this.trans rfl

/-- Claim C2: a per-call failure — a gateway result with success false
(Structured-Call), or an argument string that fails to JSON-parse (Inline) —
is recorded as the error-marked tool-result entry of exactly that call at
its position in the batch, every other call of the batch is still executed
(one result per call, one gateway event per reachable call, in order), and
sendMessage still returns a final string instead of throwing. -/
theorem c2_tool_failure_isolation :
    (∀ (env : AnthropicEnv) (pre post : List ABlock) (id name : String) (input : Json),
        (env.callTool name input).success = false →
        (execToolUses env (pre ++ ABlock.toolUse id name input :: post)).1
          = (execToolUses env pre).1
            ++ ABlock.toolResult id
                ("Error calling tool: " ++ jsOr (env.callTool name input).error "Tool call failed")
                true
              :: (execToolUses env post).1) ∧
    (∀ (env : AnthropicEnv) (bs : List ABlock),
        (execToolUses env bs).2 = bs.filterMap aEventOf) ∧
    (∀ (svc : AnthropicService) (message : String) (env : AnthropicEnv)
        (r1 follow : AResponse) (rest : List AResponse),
        r1.content.any isToolUse = true →
        (anthropicSendMessage svc message (r1 :: follow :: rest) env).result
          = Except.ok (textConcat follow.content)) ∧
    (∀ (env : OpenAIEnv) (tc : OToolCall),
        Json.parse tc.fargs = none →
        oResultOf env tc = OMessage.tool ("Error calling tool: " ++ jsonParseErrorMessage) tc.id
          ∧ oEventOf tc = none) ∧
    (∀ (env : OpenAIEnv) (tcs : List OToolCall),
        execToolCalls env tcs = (tcs.map (oResultOf env), tcs.filterMap oEventOf)) ∧
    (∀ (svc : OpenAIService) (message : String) (env : OpenAIEnv)
        (m : OChatMessage) (c : String) (rest : List OResponse),
        m.toolCalls ≠ [] → c ≠ "" →
        (openAISendMessage svc message
            (⟨[⟨some m⟩]⟩ :: ⟨[⟨some ⟨some c, []⟩⟩]⟩ :: rest) env).result = Except.ok c) := by
  refine ⟨?_, ?_, ?_, ?_, ?_, ?_⟩
  · intro env pre post id name input h
    simp [execToolUses_eq, aResultOf, h]
  · intro env bs
    rw [execToolUses_eq]
  · intro svc message env r1 follow rest h
    simp [anthropicSendMessage, handleToolUse, h]
  · intro env tc h
    unfold oResultOf oEventOf
    rw [h]
    exact ⟨rfl, rfl⟩
  · intro env tcs
    exact execToolCalls_eq env tcs
  · intro svc message env m c rest hm hc
    have hne : m.toolCalls.isEmpty = false := by
      cases hmc : m.toolCalls with
      | nil => exact absurd hmc hm
      | cons a t => rfl
    simp [openAISendMessage, handleToolCalls, hne, hc]

/-- Claim C2 witness: an Inline batch whose first call carries an
unparsable argument string and whose second call fails at the gateway still
yields the scripted follow-up text as the final answer. -/
theorem c2_tool_failure_isolation_witness :
    (openAISendMessage ⟨[]⟩ "q"
        [⟨[⟨some ⟨none, [⟨"c1", "echo", "not json"⟩, ⟨"c2", "echo", "\x7b\x7d"⟩]⟩⟩]⟩,
         ⟨[⟨some ⟨some "done", []⟩⟩]⟩]
        ⟨fun _ _ => ⟨false, Json.null, some "boom"⟩⟩).result = Except.ok "done" := by
  exact c2_tool_failure_isolation.2.2.2.2.2 ⟨[]⟩ "q"
    ⟨fun _ _ => ⟨false, Json.null, some "boom"⟩⟩
    ⟨none, [⟨"c1", "echo", "not json"⟩, ⟨"c2", "echo", "\x7b\x7d"⟩]⟩ "done" []
    (by simp) (by simp)

/-- Claim C3: the Free-Text adapter returns prose with no JSON-shaped
substring, and valid JSON lacking the tool fields, verbatim with zero
gateway calls — but the canonical detection example fails: on a completion
embedding the nested tool-call object its own system prompt requests, the
lazy brace-to-brace match stops at the first closing brace, the truncated
text fails to JSON-parse, no tool call is detected, and the raw completion
is returned verbatim with zero gateway calls instead of triggering one
gateway call named echo. -/
theorem c3_lazy_pattern_bug :
    extractToolCall "Sure thing, no tools needed." = none ∧
    extractToolCall "look \x7b\"a\":1\x7d here" = none ∧
    extractToolCall
      "Sure! \x7b\"tool_name\":\"echo\",\"parameters\":\x7b\"message\":\"hi\"\x7d\x7d done"
      = none ∧
    ollamaSendMessage ⟨[]⟩ "please echo hi"
        [some "Sure! \x7b\"tool_name\":\"echo\",\"parameters\":\x7b\"message\":\"hi\"\x7d\x7d done"]
        ⟨fun _ _ => ⟨true, Json.null, none⟩⟩ =
      ⟨Except.ok
         "Sure! \x7b\"tool_name\":\"echo\",\"parameters\":\x7b\"message\":\"hi\"\x7d\x7d done",
       ⟨[("user", "please echo hi"),
         ("assistant",
          "Sure! \x7b\"tool_name\":\"echo\",\"parameters\":\x7b\"message\":\"hi\"\x7d\x7d done")]⟩,
       [LEvent.model], []⟩ := by
  exact ⟨rfl, rfl, rfl, rfl⟩

/-- The event trace of OpenAIService.handleToolCalls: the gateway calls of
the batch followed by exactly one model re-query carrying the assistant
turn and the batch results appended to the transcript, in every script
case. -/
theorem handleToolCalls_events (svc : OpenAIService) (m : OChatMessage)
    (script : List OResponse) (env : OpenAIEnv) :
    (handleToolCalls svc m script env).events
      = (execToolCalls env m.toolCalls).2
        ++ [OEvent.model ((svc.conversationHistory ++ [OMessage.assistant m.content m.toolCalls])
             ++ (execToolCalls env m.toolCalls).1)] := by
  unfold handleToolCalls
  repeat' split
  all_goals rfl

/-- Claim C4, counterexample: the Inline-Function-Call adapter sends the
entire untrimmed transcript on its outbound request.  The concrete
three-turn request below has a spec-formula estimate of 29 tokens at the
minimal overhead instantiation (the estimate is monotone in the overhead
constants), which exceeds an available budget of 10, yet every turn of the
transcript is present in the request — no Context Budget Manager ran and no
trimming brought the estimate under the budget. -/
theorem c4_counterexample :
    (openAISendMessage
        ⟨[OMessage.user "aaaaaaaaaaaaaaaaaaaaaaaaaaaaaaaaaaaaaaaa",
          OMessage.assistant (some "bbbbbbbbbbbbbbbbbbbbbbbbbbbbbbbbbbbbbbbb") []]⟩ "hi"
        [⟨[⟨some ⟨some "ok", []⟩⟩]⟩] ⟨fun _ _ => ⟨true, Json.null, none⟩⟩).events
      = [OEvent.model
          [OMessage.user "aaaaaaaaaaaaaaaaaaaaaaaaaaaaaaaaaaaaaaaa",
           OMessage.assistant (some "bbbbbbbbbbbbbbbbbbbbbbbbbbbbbbbbbbbbbbbb") [],
           OMessage.user "hi"]] ∧
    specTranscriptEstimate 0 0
      [OMessage.user "aaaaaaaaaaaaaaaaaaaaaaaaaaaaaaaaaaaaaaaa",
       OMessage.assistant (some "bbbbbbbbbbbbbbbbbbbbbbbbbbbbbbbbbbbbbbbb") [],
       OMessage.user "hi"] = 29 ∧
    29 > 10 := by
  exact ⟨rfl, rfl, by norm_num⟩

/-- Claim C4 (amended): no Context Budget Manager runs on the
Inline-Function-Call adapter — every outbound model request of sendMessage
carries the full untrimmed transcript: the prior history followed by the
new user turn is a prefix of every request payload, whatever its estimated
size. -/
theorem c4_untrimmed_transcript (svc : OpenAIService) (message : String)
    (script : List OResponse) (env : OpenAIEnv) (ms : List OMessage)
    (h : OEvent.model ms ∈ (openAISendMessage svc message script env).events) :
    svc.conversationHistory ++ [OMessage.user message] <+: ms := by
  unfold openAISendMessage at h
  cases script with
  | nil =>
      simp only [List.mem_singleton] at h
      injection h with h2
      subst h2
      exact List.prefix_refl _
  | cons resp rest =>
      cases hch : resp.choices.head? with
      | none =>
          simp only [hch, List.mem_singleton] at h
          injection h with h2
          subst h2
          exact List.prefix_refl _
      | some choice =>
          cases hm : choice.message with
          | none =>
              simp only [hch, hm, List.mem_singleton] at h
              injection h with h2
              subst h2
              exact List.prefix_refl _
          | some m =>
              by_cases he : m.toolCalls.isEmpty
              · simp only [hch, hm, he, if_true, List.mem_singleton] at h
                injection h with h2
                subst h2
                exact List.prefix_refl _
              · simp only [hch, hm] at h
                rw [if_neg he] at h
                cases h with
                | head => exact List.prefix_refl _
                | tail _ h =>
                    rw [handleToolCalls_events] at h
                    rcases List.mem_append.mp h with h | h
                    · exact absurd h (fun hx => oEvents_not_model env m.toolCalls ms hx)
                    · simp only [List.mem_singleton] at h
                      injection h with h2
                      subst h2
                      rw [List.append_assoc]
                      exact List.prefix_append _ _

/-- Claim C4 witness: the untrimmed-transcript theorem applied to a run
from an empty history. -/
theorem c4_untrimmed_transcript_witness :
    ([] : List OMessage) ++ [OMessage.user "hi"] <+: [OMessage.user "hi"] := by
  exact c4_untrimmed_transcript ⟨[]⟩ "hi" [] ⟨fun _ _ => ⟨true, Json.null, none⟩⟩
    [OMessage.user "hi"] (List.mem_singleton.mpr rfl)

/-- Claim C5, counterexample: a single user turn of serialized length 12 is
estimated at 3 tokens — ceil(12/4) — while the claimed formula gives
ceil(12/3) = 4 before any nonnegative per-turn overhead is even added; and
one registered tool with a 300-character description costs a flat 50
tokens, while the claimed formula gives at least ceil(300/3) = 100. -/
theorem c5_counterexample :
    (getConversationStats ⟨[⟨ARole.user, AContent.str "aaaaaaaaaaaa"⟩], [], none⟩).estimatedTokens
      = 3 ∧
    ("aaaaaaaaaaaa".length + 2) / 3 = 4 ∧
    (3 : Nat) ≠ 4 ∧
    (getConversationStats
        ⟨[], [⟨"getCats", String.mk (List.replicate 300 'd'), Json.null⟩], none⟩).toolTokens
      = 50 ∧
    (300 + 2) / 3 = 100 ∧
    (50 : Nat) ≠ 100 := by
  refine ⟨rfl, rfl, by norm_num, rfl, by norm_num, by norm_num⟩

/-- Claim C5 (amended): the conversation estimate of getConversationStats
is the sum over history entries of ceil(serializedLength / 4) with no
per-turn or per-call overhead, the tool cost is a flat 50 tokens per
registered tool, the model limit is 200000, and the available budget is the
limit minus the reserve (maxTokens, default 1000, plus 500) minus the tool
cost. -/
theorem c5_stats_formula (svc : AnthropicService) :
    (getConversationStats svc).messageCount = svc.conversationHistory.length ∧
    (getConversationStats svc).estimatedTokens
      = (svc.conversationHistory.map
          (fun m => ((serializeContent m.content).length + 3) / 4)).sum ∧
    (getConversationStats svc).toolTokens = svc.tools.length * 50 ∧
    (getConversationStats svc).modelLimit = 200000 ∧
    (getConversationStats svc).availableTokens
      = (200000 : Int) - (jsOrNat svc.maxTokens 1000 + 500) - svc.tools.length * 50 := by
  refine ⟨rfl, ?_, rfl, rfl, ?_⟩
  · unfold getConversationStats
    simpa using foldl_add_map
      (fun m => ((serializeContent m.content).length + 3) / 4) svc.conversationHistory 0
  · unfold getConversationStats
    push_cast
    ring

/-- Every model request of the Inline-Function-Call adapter carries either
the prior history plus the new user turn, or that plus one assistant turn
and the batch of tool results of some tool-call message. -/
theorem openAISendMessage_model_events (svc : OpenAIService) (message : String)
    (script : List OResponse) (env : OpenAIEnv) (ms : List OMessage)
    (h : OEvent.model ms ∈ (openAISendMessage svc message script env).events) :
    ms = svc.conversationHistory ++ [OMessage.user message] ∨
    ∃ m : OChatMessage,
      ms = ((svc.conversationHistory ++ [OMessage.user message])
             ++ [OMessage.assistant m.content m.toolCalls])
           ++ (execToolCalls env m.toolCalls).1 := by
  unfold openAISendMessage at h
  cases script with
  | nil =>
      simp only [List.mem_singleton] at h
      injection h with h2
      exact Or.inl h2
  | cons resp rest =>
      cases hch : resp.choices.head? with
      | none =>
          simp only [hch, List.mem_singleton] at h
          injection h with h2
          exact Or.inl h2
      | some choice =>
          cases hm : choice.message with
          | none =>
              simp only [hch, hm, List.mem_singleton] at h
              injection h with h2
              exact Or.inl h2
          | some m =>
              by_cases he : m.toolCalls.isEmpty
              · simp only [hch, hm, he, if_true, List.mem_singleton] at h
                injection h with h2
                exact Or.inl h2
              · simp only [hch, hm] at h
                rw [if_neg he] at h
                cases h with
                | head => exact Or.inl rfl
                | tail _ h =>
                    rw [handleToolCalls_events] at h
                    rcases List.mem_append.mp h with h | h
                    · exact absurd h (fun hx => oEvents_not_model env m.toolCalls ms hx)
                    · simp only [List.mem_singleton] at h
                      injection h with h2
                      exact Or.inr ⟨m, h2⟩

/-- Claim C6, counterexample: the outbound request of the
Inline-Function-Call adapter for a fresh session consists of the user turn
alone — no system instruction (and in particular no date-carrying
instruction) is prepended to the message sequence. -/
theorem c6_counterexample :
    (openAISendMessage ⟨[]⟩ "hi" [⟨[⟨some ⟨some "hello", []⟩⟩]⟩]
        ⟨fun _ _ => ⟨true, Json.null, none⟩⟩).events
      = [OEvent.model [OMessage.user "hi"]] ∧
    ([OMessage.user "hi"].filter OMessage.isSystem).length = 0 := by
  exact ⟨rfl, rfl⟩

/-- Claim C6 (amended): the Inline-Function-Call adapter never prepends a
system instruction: provided the prior history contains no system entry, no
outbound model request of sendMessage contains one — requests consist
solely of accumulated user, assistant and tool turns. -/
theorem c6_no_system_instruction (svc : OpenAIService) (message : String)
    (script : List OResponse) (env : OpenAIEnv) (ms : List OMessage)
    (hhist : ∀ m ∈ svc.conversationHistory, m.isSystem = false)
    (h : OEvent.model ms ∈ (openAISendMessage svc message script env).events) :
    ∀ m ∈ ms, m.isSystem = false := by
  rcases openAISendMessage_model_events svc message script env ms h with h2 | ⟨m, h2⟩
  · subst h2
    intro x hx
    rcases List.mem_append.mp hx with hx | hx
    · exact hhist x hx
    · simp only [List.mem_singleton] at hx
      subst hx
      rfl
  · subst h2
    intro x hx
    rcases List.mem_append.mp hx with hx | hx
    · rcases List.mem_append.mp hx with hx | hx
      · rcases List.mem_append.mp hx with hx | hx
        · exact hhist x hx
        · simp only [List.mem_singleton] at hx
          subst hx
          rfl
      · simp only [List.mem_singleton] at hx
        subst hx
        rfl
    · exact oResults_not_system env m.toolCalls x hx

/-- Claim C6 witness: the no-system-instruction theorem applied to a run
from an empty history. -/
theorem c6_no_system_instruction_witness :
    OMessage.isSystem (OMessage.user "hi") = false := by
  exact c6_no_system_instruction ⟨[]⟩ "hi" [] ⟨fun _ _ => ⟨true, Json.null, none⟩⟩
    [OMessage.user "hi"] (fun m hm => absurd hm (List.not_mem_nil m))
    (List.mem_singleton.mpr rfl) (OMessage.user "hi") (List.mem_singleton.mpr rfl)

/-- Claim C7, counterexample: not every adapter treats an unexpected or
empty response body as an empty-string answer — the Inline adapter throws a
no-response error when the first choice is absent, and the Free-Text
adapter throws when the completion body is the empty string. -/
theorem c7_counterexample :
    (openAISendMessage ⟨[]⟩ "hi" [⟨[]⟩] ⟨fun _ _ => ⟨true, Json.null, none⟩⟩).result
      = Except.error "OpenAI API error: No response from OpenAI" ∧
    (ollamaSendMessage ⟨[]⟩ "hi" [some ""] ⟨fun _ _ => ⟨true, Json.null, none⟩⟩).result
      = Except.error "Ollama API error: No response from Ollama" := by
  exact ⟨rfl, rfl⟩

/-- Claim C7 (amended): the empty-answer treatment holds for the
Structured-Call adapter on a response with zero content blocks and for the
Inline adapter on a present message with null content and no tool calls —
both return the empty string without error; an absent first choice (Inline)
and an absent or empty completion body (Free-Text) instead throw. -/
theorem c7_empty_shapes (svc : AnthropicService) (osvc : OpenAIService) (message : String)
    (arest : List AResponse) (orest : List OResponse)
    (env : AnthropicEnv) (oenv : OpenAIEnv) :
    (anthropicSendMessage svc message (⟨[]⟩ :: arest) env).result = Except.ok "" ∧
    (openAISendMessage osvc message (⟨[⟨some ⟨none, []⟩⟩]⟩ :: orest) oenv).result
      = Except.ok "" := by
  exact ⟨rfl, rfl⟩

/-- Claim C8: a Structured-Call response carrying exactly two tool-call
blocks yields exactly two gateway invocations, in the order the blocks
appear, followed by exactly one model re-query — the full event trace is
the initial request, the two calls, and one re-query, and the final answer
is the follow-up text. -/
theorem c8_two_calls_one_requery (svc : AnthropicService) (message : String)
    (t0 t1 t2 : List ABlock) (id1 n1 id2 n2 : String) (i1 i2 : Json)
    (follow : AResponse) (rest : List AResponse) (env : AnthropicEnv)
    (h0 : ∀ b ∈ t0, isToolUse b = false)
    (h1 : ∀ b ∈ t1, isToolUse b = false)
    (h2 : ∀ b ∈ t2, isToolUse b = false) :
    (anthropicSendMessage svc message
        (⟨t0 ++ ABlock.toolUse id1 n1 i1 :: (t1 ++ ABlock.toolUse id2 n2 i2 :: t2)⟩
          :: follow :: rest) env).events
      = [AEvent.model (svc.conversationHistory ++ [⟨ARole.user, AContent.str message⟩]),
         AEvent.tool n1 i1, AEvent.tool n2 i2,
         AEvent.model (svc.conversationHistory ++
           [⟨ARole.user, AContent.str message⟩,
            ⟨ARole.assistant, AContent.blocks
              (t0 ++ ABlock.toolUse id1 n1 i1 :: (t1 ++ ABlock.toolUse id2 n2 i2 :: t2))⟩,
            ⟨ARole.user, AContent.blocks
              ((t0 ++ ABlock.toolUse id1 n1 i1 :: (t1 ++ ABlock.toolUse id2 n2 i2 :: t2)).filterMap
                (aResultOf env))⟩])] ∧
    (anthropicSendMessage svc message
        (⟨t0 ++ ABlock.toolUse id1 n1 i1 :: (t1 ++ ABlock.toolUse id2 n2 i2 :: t2)⟩
          :: follow :: rest) env).result = Except.ok (textConcat follow.content) := by
  have hany : (t0 ++ ABlock.toolUse id1 n1 i1 :: (t1 ++ ABlock.toolUse id2 n2 i2 :: t2)).any
      isToolUse = true := by
    simp [isToolUse]
  constructor
  · simp [anthropicSendMessage, handleToolUse, hany, execToolUses_eq,
      filterMap_aEventOf_nil t0 h0, filterMap_aEventOf_nil t1 h1, filterMap_aEventOf_nil t2 h2,
      aEventOf, List.append_assoc]
  · simp [anthropicSendMessage, handleToolUse, hany]

/-- Claim C8 witness: the two-call theorem applied to a concrete two-block
response. -/
theorem c8_two_calls_one_requery_witness :
    (anthropicSendMessage ⟨[], [], none⟩ "list cats"
        [⟨[ABlock.toolUse "1" "getCats" Json.null,
           ABlock.toolUse "2" "getCat" (Json.str "Whiskers")]⟩,
         ⟨[ABlock.text "two cats"]⟩] ⟨fun _ _ => ⟨true, Json.null, none⟩⟩).events
      = [AEvent.model [⟨ARole.user, AContent.str "list cats"⟩],
         AEvent.tool "getCats" Json.null, AEvent.tool "getCat" (Json.str "Whiskers"),
         AEvent.model [⟨ARole.user, AContent.str "list cats"⟩,
           ⟨ARole.assistant, AContent.blocks
             [ABlock.toolUse "1" "getCats" Json.null,
              ABlock.toolUse "2" "getCat" (Json.str "Whiskers")]⟩,
           ⟨ARole.user, AContent.blocks
             [ABlock.toolResult "1" "null" false, ABlock.toolResult "2" "null" false]⟩]] := by
  have h := c8_two_calls_one_requery ⟨[], [], none⟩ "list cats" [] [] []
    "1" "getCats" "2" "getCat" Json.null (Json.str "Whiskers")
    ⟨[ABlock.text "two cats"]⟩ [] ⟨fun _ _ => ⟨true, Json.null, none⟩⟩
    (fun b hb => absurd hb (List.not_mem_nil b))
    (fun b hb => absurd hb (List.not_mem_nil b))
    (fun b hb => absurd hb (List.not_mem_nil b))
  exact h.1.trans rfl

/-- Claim C9: the Adapter Factory either returns the adapter matching the
configured provider or fails with a descriptive configuration error — a
hosted provider with an absent or empty credential, a local provider with
an absent or empty base address, and an unknown provider identifier all
fail — and its construction record of network and gateway calls is always
empty. -/
theorem c9_factory_validation (config : LLMConfig) :
    (factoryCreate config).2 = [] ∧
    (config.provider = "anthropic" → jsTruthyStr config.apiKey = false →
        factoryCreate config = (Except.error "API key is required for Anthropic", [])) ∧
    (config.provider = "anthropic" → jsTruthyStr config.apiKey = true →
        factoryCreate config = (Except.ok CreatedService.anthropic, [])) ∧
    (config.provider = "openai" → jsTruthyStr config.apiKey = false →
        factoryCreate config = (Except.error "API key is required for OpenAI", [])) ∧
    (config.provider = "openai" → jsTruthyStr config.apiKey = true →
        factoryCreate config = (Except.ok CreatedService.openai, [])) ∧
    (config.provider = "ollama" → jsTruthyStr config.baseUrl = false →
        factoryCreate config = (Except.error "Base URL is required for Ollama", [])) ∧
    (config.provider = "ollama" → jsTruthyStr config.baseUrl = true →
        factoryCreate config = (Except.ok CreatedService.ollama, [])) ∧
    (config.provider ≠ "anthropic" → config.provider ≠ "openai" → config.provider ≠ "ollama" →
        factoryCreate config
          = (Except.error ("Unsupported LLM provider: " ++ config.provider), [])) := by
  refine ⟨?_, ?_, ?_, ?_, ?_, ?_, ?_, ?_⟩
  · unfold factoryCreate
    split_ifs <;> rfl
  · intro hp hk
    simp [factoryCreate, hp, hk]
  · intro hp hk
    simp [factoryCreate, hp, hk]
  · intro hp hk
    simp [factoryCreate, hp, hk]
  · intro hp hk
    simp [factoryCreate, hp, hk]
  · intro hp hk
    simp [factoryCreate, hp, hk]
  · intro hp hk
    simp [factoryCreate, hp, hk]
  · intro hp1 hp2 hp3
    simp [factoryCreate, hp1, hp2, hp3]

/-- Claim C9 witness: the factory theorem applied to a hosted configuration
with an empty credential string. -/
theorem c9_factory_validation_witness :
    factoryCreate ⟨"anthropic", "claude-3-5-sonnet", some "", none, none⟩
      = (Except.error "API key is required for Anthropic", []) := by
  exact (c9_factory_validation ⟨"anthropic", "claude-3-5-sonnet", some "", none, none⟩).2.1
    rfl (by decide)

/-- Claim C10: when the Free-Text adapter detects a tool call and the
gateway call succeeds, the appended history is exactly the user turn, the
fixed synthesized assistant turn naming the tool, and the follow-up answer
— the raw completion text carrying the tool-call JSON is never appended,
so any history entry carrying it must have been present before the call. -/
theorem c10_synthesized_history (svc : OllamaService) (message raw : String)
    (n p : Json) (follow : Option String) (rest : List (Option String)) (env : OllamaEnv)
    (hraw : raw ≠ "") (hex : extractToolCall raw = some (n, p))
    (hsucc : (env.callTool n p).success = true) :
    (ollamaSendMessage svc message (some raw :: follow :: rest) env).state.conversationHistory
      = svc.conversationHistory ++
        [("user", message),
         ("assistant", "I\x27ll use the " ++ jsDisplay n ++ " tool to help you."),
         ("assistant", jsOr follow "Tool executed successfully.")] ∧
    (ollamaSendMessage svc message (some raw :: follow :: rest) env).result
      = Except.ok (jsOr follow "Tool executed successfully.") ∧
    (raw ≠ message →
     raw ≠ "I\x27ll use the " ++ jsDisplay n ++ " tool to help you." →
     raw ≠ jsOr follow "Tool executed successfully." →
     ∀ e ∈ (ollamaSendMessage svc message
        (some raw :: follow :: rest) env).state.conversationHistory,
       e.2 = raw → e ∈ svc.conversationHistory) := by
  have hrun : ollamaSendMessage svc message (some raw :: follow :: rest) env
      = ⟨Except.ok (jsOr follow "Tool executed successfully."),
         ⟨svc.conversationHistory ++
           [("user", message),
            ("assistant", "I\x27ll use the " ++ jsDisplay n ++ " tool to help you."),
            ("assistant", jsOr follow "Tool executed successfully.")]⟩,
         [LEvent.model, LEvent.tool n p, LEvent.model], rest⟩ := by
    simp [ollamaSendMessage, hraw, hex, ollamaHandleToolCall, hsucc]
  refine ⟨by rw [hrun], by rw [hrun], ?_⟩
  intro hm hs hf e he h2
  rw [hrun] at he
  rcases List.mem_append.mp he with he | he
  · exact he
  · exfalso
    simp only [List.mem_cons, List.mem_singleton] at he
    rcases he with he | he | he | he
    · rw [he] at h2
      exact hm (h2.symm)
    · rw [he] at h2
      exact hs (h2.symm)
    · rw [he] at h2
      exact hf (h2.symm)
    · exact (List.not_mem_nil e) he

/-- Claim C10 witness: the synthesized-history theorem applied to a
completion carrying a flat-parameter tool call, which the extractor does
detect. -/
theorem c10_synthesized_history_witness :
    (ollamaSendMessage ⟨[]⟩ "use echo"
        [some "\x7b\"tool_name\":\"echo\",\"parameters\":\"hi\"\x7d", some "done"]
        ⟨fun _ _ => ⟨true, Json.str "hi", none⟩⟩).state.conversationHistory
      = [("user", "use echo"),
         ("assistant", "I\x27ll use the echo tool to help you."),
         ("assistant", "done")] := by
  have h := c10_synthesized_history ⟨[]⟩ "use echo"
      "\x7b\"tool_name\":\"echo\",\"parameters\":\"hi\"\x7d" (Json.str "echo") (Json.str "hi")
      (some "done") [] ⟨fun _ _ => ⟨true, Json.str "hi", none⟩⟩
      (by decide) rfl rfl
  exact h.1.trans rfl

end CatsMCP
